import Mathlib

namespace Evidence

/-!
Verification of the EVIDENCE fraud-detection pipeline core
(`src/django/api/ml_data/services/`): FeatureEngineer, Predictor,
AlertCreator and CaseBuilder.  The Python services are shallowly embedded
as executable Lean functions over `ℚ`, `String` and `List`; the claims of
the specification are settled as theorems about those functions.

Conventions of the embedding:
* pandas/NumPy real arithmetic is modelled over `ℚ` (exact rationals);
* Python `dict` grouping (insertion-ordered) is modelled by `firstKeys`
  plus `List.filter`;
* Python `int(x)` truncation toward zero is `pyInt`;
* records carry exactly the fields the services read or write; fields
  that are wall-clock dependent (`created_at`, the date-stamped
  `case_id`) are not modelled since no property refers to them.
-/

/-- Python `str.upper()` on one character (ASCII, which is all the
fixture identifiers contain). -/
def upperChar (c : Char) : Char :=
  if 97 ≤ c.toNat ∧ c.toNat ≤ 122 then Char.ofNat (c.toNat - 32) else c

/-- Is the first list a prefix of the second (by `==` on characters)? -/
def isPrefixList : List Char → List Char → Bool
  | [], _ => true
  | _ :: _, [] => false
  | a :: as, b :: bs => a == b && isPrefixList as bs

/-- Is the first list a contiguous sublist of the second? -/
def isInfixList (needle : List Char) : List Char → Bool
  | [] => isPrefixList needle []
  | b :: bs => isPrefixList needle (b :: bs) || isInfixList needle bs

/-- Python `needle in hay` on the upper-cased string, as character-list
infix containment (structural, hence kernel-evaluable). -/
def strContainsUpper (hay : String) (needle : List Char) : Bool :=
  isInfixList needle (hay.data.map upperChar)

/-- Python `int(x)` on a real value: truncation toward zero. -/
def pyInt (q : ℚ) : ℤ :=
  if 0 ≤ q then ⌊q⌋ else -⌊-q⌋

/-- Keys of a Python `dict` built by insertion: each distinct key once,
in order of first occurrence. -/
def firstKeys {α : Type} [DecidableEq α] : List α → List α
  | [] => []
  | k :: ks => k :: firstKeys (ks.filter (fun x => x ≠ k))
termination_by l => l.length
decreasing_by
  simp only [List.length_cons]
  have := List.length_filter_le (fun x => decide (x ≠ k)) ks
  omega

/-!
## AlertCreator (`services/alert_creator.py`)

A scored transaction row, with exactly the columns `_infer_fraud_type`
and `_calculate_severity` read.  Integer-valued count/flag columns are
`ℕ`, monetary columns are `ℚ`.
-/

structure Row where
  user_id : String
  failed_login_1h : ℕ
  geo_change_1d : ℕ
  new_ip_1d : ℕ
  amount : ℚ
  declared_income : ℚ
  is_cross_border : ℕ
  amount_in_1d : ℚ
  amount_out_1d : ℚ
deriving DecidableEq, Repr

/-- Model of `AlertCreator._infer_fraud_type`, returning
`(fraud_type, detector_type, signal)` — the exact cascade of the source. -/
def infer_fraud_type (row : Row) : String × String × String :=
  if strContainsUpper row.user_id ['R', 'I', 'N', 'G'] then
    ("fraud_ring", "NETWORK", "COORDINATED_ACTIVITY")
  else if strContainsUpper row.user_id ['M', 'U', 'L', 'T', 'I'] then
    ("multi_account_fraud", "TRANSACTION", "MULTI_ACCOUNT_LAYERING")
  else if 3 ≤ row.failed_login_1h ∨ (row.geo_change_1d = 1 ∧ row.new_ip_1d = 1) then
    ("account_takeover", "ATO", "SUSPICIOUS_LOGIN_PATTERN")
  else if 0 < row.declared_income ∧ 1/2 < row.amount / row.declared_income then
    ("income_anomaly", "BEHAVIOR", "INCOME_EXCEEDS_DECLARATION")
  else if row.is_cross_border = 1 ∧ row.geo_change_1d = 1 then
    ("geo_anomaly", "BEHAVIOR", "IMPOSSIBLE_TRAVEL")
  else if 5000 < row.amount_in_1d ∧ 5000 < row.amount_out_1d then
    ("money_mule", "TRANSACTION", "RAPID_FUND_MOVEMENT")
  else if 8000 ≤ row.amount ∧ row.amount ≤ 9999 then
    ("money_mule", "TRANSACTION", "STRUCTURING_PATTERN")
  else
    ("behavioral_anomaly", "BEHAVIOR", "ML_ANOMALY_DETECTED")

/-- The spec's ordered rule list for fraud-type inference:
(predicate, label) pairs in the spec's stated precedence. -/
def fraudRules : List ((Row → Bool) × String) :=
  [ (fun row => strContainsUpper row.user_id ['R', 'I', 'N', 'G'], "fraud_ring"),
    (fun row => strContainsUpper row.user_id ['M', 'U', 'L', 'T', 'I'],
      "multi_account_fraud"),
    (fun row => decide (3 ≤ row.failed_login_1h ∨ (row.geo_change_1d = 1 ∧ row.new_ip_1d = 1)),
      "account_takeover"),
    (fun row => decide (1/2 < row.amount / row.declared_income), "income_anomaly"),
    (fun row => decide (row.is_cross_border = 1 ∧ row.geo_change_1d = 1), "geo_anomaly"),
    (fun row => decide (5000 < row.amount_in_1d ∧ 5000 < row.amount_out_1d), "money_mule"),
    (fun row => decide (8000 ≤ row.amount ∧ row.amount ≤ 9999), "money_mule"),
    (fun _ => true, "behavioral_anomaly") ]

/-- First-match-wins evaluation of an ordered (predicate, label) list:
the label of the first rule whose predicate holds. -/
def firstMatchLabel : List ((Row → Bool) × String) → Row → String
  | [], _ => "behavioral_anomaly"
  | r :: rs, row => if r.1 row then r.2 else firstMatchLabel rs row

/-- Model of `AlertCreator._calculate_severity`: severity tier from the anomaly
score. -/
def calculate_severity (score : ℚ) : String :=
  if score > 7/10 then "CRITICAL"
  else if score > 5/10 then "HIGH"
  else if score > 3/10 then "MEDIUM"
  else "LOW"

/-- Numeric rank of a severity tier, for stating monotonicity. -/
def severityRank (s : String) : ℕ :=
  if s = "CRITICAL" then 3
  else if s = "HIGH" then 2
  else if s = "MEDIUM" then 1
  else 0

/-!
## Predictor (`services/predictor.py`)

`Predictor.predict` is modelled on the list of raw decision-function
values the opaque scorer returns for the batch (the model, imputer and
scaler are the externally trained artifact; their composite output on the
batch is the `raw_scores` input here, exactly the value of
`self.model.decision_function(X_scaled)` in the source).  The returned
list pairs each row's `anomaly_score` with its `is_anomaly` flag.
-/

/-- Python `min(...)` of a series (`.min()`); 0 on the empty series,
which the source never hits. -/
def listMin : List ℚ → ℚ
  | [] => 0
  | x :: xs => xs.foldl min x

/-- Python `max(...)` of a series (`.max()`); 0 on the empty series. -/
def listMax : List ℚ → ℚ
  | [] => 0
  | x :: xs => xs.foldl max x

/-- Model of `Predictor.predict`: negate the raw scores, min-max normalize over
the batch (all-zero when the batch is constant), then flag
`anomaly_score > threshold`, the threshold being the per-invocation
override when supplied and the artifact's threshold otherwise. -/
def predict (raw_scores : List ℚ) (model_threshold : ℚ) (override : Option ℚ) :
    List (ℚ × Bool) :=
  let threshold := override.getD model_threshold
  let anomaly0 := raw_scores.map (fun r => -r)
  let m := listMin anomaly0
  let M := listMax anomaly0
  let scores :=
    if m < M then anomaly0.map (fun s => (s - m) / (M - m))
    else anomaly0.map (fun _ => 0)
  scores.map (fun s => (s, decide (threshold < s)))

/-!
## FeatureEngineer (`services/feature_engineer.py`)

`compute_features` sorts by `(user_id, event_time)` and then computes the
per-user series features with `groupby("user_id")`.  We model a raw
transaction as `Txn`, the sort as insertion sort under the lexicographic
key, and each per-user feature as a function of the user's time-ordered
amount (resp. time) series.

`gap_log` is `log1p` applied elementwise to `gap_args` (the hour gaps
clipped below at 0.01, with a 24-hour default for a user's first
transaction); since `log1p` is strictly monotone, properties of `gap_log`
are stated on `gap_args`.
-/

structure Txn where
  user_id : String
  event_time : ℚ
  amount : ℚ
deriving DecidableEq, Repr

/-- Lexicographic order on `(user_id, event_time)`, the sort key of
`df.sort_values(["user_id", "event_time"])`. -/
def txnLe (a b : Txn) : Prop :=
  a.user_id < b.user_id ∨ (a.user_id = b.user_id ∧ a.event_time ≤ b.event_time)

instance : DecidableRel txnLe := fun a b => by unfold txnLe; infer_instance

/-- The sort of `compute_features` (line 186 of the source). -/
def sortTxns (l : List Txn) : List Txn :=
  List.insertionSort txnLe l

/-- pandas `Series.median()`: middle of the sorted values, or the mean of
the two middle values for an even count; 0 models the empty series (the
source only takes medians of nonempty per-user groups). -/
def median (l : List ℚ) : ℚ :=
  let s := List.insertionSort (· ≤ ·) l
  if s.length = 0 then 0
  else if s.length % 2 = 1 then s.getD (s.length / 2) 0
  else (s.getD (s.length / 2 - 1) 0 + s.getD (s.length / 2) 0) / 2

/-- Model of `FeatureEngineer._compute_mod_z_score`'s per-user computation: median
and MAD over the user's *entire* amount series, falling back to the
series' sample standard deviation when the MAD is zero and to 1 when that
is also zero.  The standard deviation is irrational in general, so it is
an explicit parameter `stdFn` of the embedding; it is only consulted in
the zero-MAD branch. -/
def mod_z_score (stdFn : List ℚ → ℚ) (amounts : List ℚ) : List ℚ :=
  let med := median amounts
  let mad0 := median (amounts.map (fun a => |a - med|))
  let mad1 := if mad0 = 0 then stdFn amounts else mad0
  let mad := if mad1 = 0 then 1 else mad1
  amounts.map (fun a => |(a - med) / (14826/10000 * mad)|)

/-- Model of `ewm(span=5, adjust=True).mean()` running state: with α = 1/3, the
weighted numerator and denominator both decay by 2/3 per step. -/
def ewmaGo : List ℚ → ℚ → ℚ → List ℚ
  | [], _, _ => []
  | x :: xs, num, den =>
    let num' := x + 2/3 * num
    let den' := 1 + 2/3 * den
    num' / den' :: ewmaGo xs num' den'

/-- pandas `ewm(span=5, min_periods=1).mean()` of a series. -/
def ewm_mean (xs : List ℚ) : List ℚ :=
  ewmaGo xs 0 0

/-- Model of `FeatureEngineer._compute_ewma_resid`'s per-user computation:
`(amount - ewma).abs()`. -/
def ewma_resid (xs : List ℚ) : List ℚ :=
  (xs.zip (ewm_mean xs)).map (fun p => |p.1 - p.2|)

/-- Hour gaps of `_compute_gap_log` after the first element:
`(t_i - t_{i-1})/3600`, clipped below at 0.01. -/
def gapArgsGo (prev : ℚ) : List ℚ → List ℚ
  | [] => []
  | t :: ts => max ((t - prev) / 3600) (1/100) :: gapArgsGo t ts

/-- Model of `FeatureEngineer._compute_gap_log`'s per-user computation up to the
final `log1p`: `diff` in hours, `fillna(24)` for the first transaction,
`clip(lower=0.01)`.  The source's `gap_log` is `log1p` of each entry. -/
def gap_args : List ℚ → List ℚ
  | [] => []
  | t :: ts => max 24 (1/100) :: gapArgsGo t ts

/-- The user's time-ordered amount series, as `groupby("user_id")` sees
it after the `(user_id, event_time)` sort. -/
def userAmounts (l : List Txn) (u : String) : List ℚ :=
  ((sortTxns l).filter (fun a => a.user_id == u)).map (fun a => a.amount)

/-- The user's time-ordered event-time series (seconds). -/
def userTimes (l : List Txn) (u : String) : List ℚ :=
  ((sortTxns l).filter (fun a => a.user_id == u)).map (fun a => a.event_time)

/-- Model of `mod_z_score_abs` of a user across a batch of transactions. -/
def mod_z_for (stdFn : List ℚ → ℚ) (l : List Txn) (u : String) : List ℚ :=
  mod_z_score stdFn (userAmounts l u)

/-!
## CaseBuilder (`services/case_builder.py`)

Alerts carry the fields `build_cases` reads; `evidence` sub-fields
(`device_id`, `ip_address`, `amount`) are inlined as alert fields, with
`"unknown"` the `device_id` default.  Cases carry the fields the claims
refer to; the wall-clock `case_id`/`created_at` and the rounded `summary`
block are not modelled.  Python's `set` iteration order is unspecified,
so `list(set(...))` values are modelled in first-occurrence order
(`firstKeys`); properties about them are stated membership-wise.
-/

structure Alert where
  alert_id : String
  user_id : String
  account_id : String
  confidence : ℚ
  fraud_type_inferred : String
  device_id : String
  ip_address : String
  event_time : ℚ
deriving DecidableEq, Repr

/-- Total-function default used where Python would raise `IndexError` on
an empty group; every call site passes a nonempty group. -/
def dummyAlert : Alert :=
  ⟨"", "", "", 0, "", "unknown", "", 0⟩

structure Case where
  status : String
  priority : String
  case_score : ℤ
  risk_level : String
  fraud_type : String
  user_ids : List String
  account_id : String
  alert_ids : List String
  alert_count : ℕ
  ring_members : Option (List String)
  shared_device : Option String
  shared_ip : Option String
  accounts_involved : Option (List String)
deriving DecidableEq, Repr

/-- Model of `max(scores) if scores else 0` over the group's confidences. -/
def maxConf (alerts : List Alert) : ℚ :=
  listMax (alerts.map (fun a => a.confidence))

/-- Model of `sum(scores)/len(scores) if scores else 0`. -/
def avgConf (alerts : List Alert) : ℚ :=
  if alerts.length = 0 then 0
  else (alerts.map (fun a => a.confidence)).sum / alerts.length

/-- Model of `CaseBuilder._build_single_case`: score, risk level and shared fields
of a case from its alert group (the ring-specific fields are added by the
pass-1 caller, `accounts_involved` by the pass-2 caller). -/
def build_single_case (alerts : List Alert) (fraud_type : String) : Case :=
  let alert_factor := min ((alerts.length : ℚ) * (5/100)) (2/10)
  let case_score :=
    pyInt (min 95 ((avgConf alerts + maxConf alerts) / 2 * 100 + alert_factor * 100))
  let risk_level :=
    if case_score ≥ 80 then "CRITICAL"
    else if case_score ≥ 60 then "HIGH"
    else if case_score ≥ 40 then "MEDIUM"
    else "LOW"
  { status := "OPEN"
    priority := risk_level
    case_score := case_score
    risk_level := risk_level
    fraud_type := fraud_type
    user_ids :=
      if fraud_type == "fraud_ring" then firstKeys (alerts.map (fun a => a.user_id))
      else [(alerts.headD dummyAlert).user_id]
    account_id := (alerts.headD dummyAlert).account_id
    alert_ids := alerts.map (fun a => a.alert_id)
    alert_count := alerts.length
    ring_members := none
    shared_device := none
    shared_ip := none
    accounts_involved := none }

/-- Alerts whose evidence carries a known device id (pass 1 skips
`"unknown"`). -/
def devAlertsOf (alerts : List Alert) : List Alert :=
  alerts.filter (fun a => a.device_id != "unknown")

/-- The `device_groups[d]` list of pass 1. -/
def deviceGroup (alerts : List Alert) (d : String) : List Alert :=
  (devAlertsOf alerts).filter (fun a => a.device_id == d)

/-- Model of `set(a["user_id"] for a in device_alerts)` in first-occurrence
order. -/
def deviceUsers (alerts : List Alert) (d : String) : List String :=
  firstKeys ((deviceGroup alerts d).map (fun a => a.user_id))

/-- The devices pass 1 turns into fraud-ring cases: device groups
spanning more than one distinct user. -/
def ringDevices (alerts : List Alert) : List String :=
  (firstKeys ((devAlertsOf alerts).map (fun a => a.device_id))).filter
    (fun d => decide (1 < (deviceUsers alerts d).length))

/-- The fraud-ring case pass 1 builds for ring device `d`. -/
def mkRingCase (alerts : List Alert) (d : String) : Case :=
  { build_single_case (deviceGroup alerts d) "fraud_ring" with
    ring_members := some (deviceUsers alerts d)
    shared_device := some d
    shared_ip := some ((deviceGroup alerts d).headD dummyAlert).ip_address }

/-- Model of `CaseBuilder._build_fraud_ring_cases`: the ring cases and the updated
processed-id set (modelled as a list; only membership is consulted). -/
def build_fraud_ring_cases (alerts : List Alert) (processed : List String) :
    List Case × List String :=
  ((ringDevices alerts).map (mkRingCase alerts),
   processed ++ (ringDevices alerts).flatMap
     (fun d => (deviceGroup alerts d).map (fun a => a.alert_id)))

/-- Python `max(set(l), key=l.count)`: the first distinct value attaining
the maximal multiplicity ("unknown" models `max` of an empty group, which
the source never builds). -/
def mostFrequent (l : List String) : String :=
  match firstKeys l with
  | [] => "unknown"
  | k :: ks => ks.foldl (fun best x => if l.count best < l.count x then x else best) k

/-- The alerts pass 1 left unconsumed (`alert_id not in processed_ids`). -/
def remainingAlerts (alerts : List Alert) (processed : List String) : List Alert :=
  alerts.filter (fun a => decide (a.alert_id ∉ processed))

/-- The `user_groups[u]` list of pass 2. -/
def userGroup (alerts : List Alert) (processed : List String) (u : String) : List Alert :=
  (remainingAlerts alerts processed).filter (fun a => a.user_id == u)

/-- Model of `set(a["account_id"] for a in user_alerts)` in first-occurrence
order. -/
def userAccounts (alerts : List Alert) (processed : List String) (u : String) :
    List String :=
  firstKeys ((userGroup alerts processed u).map (fun a => a.account_id))

/-- The case pass 2 builds for one user group: dominant fraud type by
multiplicity, overridden to `multi_account_fraud` (with the accounts
recorded) when the group spans several accounts. -/
def build_user_case_for (alerts : List Alert) (processed : List String) (u : String) :
    Case :=
  let group := userGroup alerts processed u
  let primary0 := mostFrequent (group.map (fun a => a.fraud_type_inferred))
  let accounts := userAccounts alerts processed u
  let primary := if 1 < accounts.length then "multi_account_fraud" else primary0
  let c := build_single_case group primary
  if primary == "multi_account_fraud" then { c with accounts_involved := some accounts }
  else c

/-- Model of `CaseBuilder._build_user_cases`: group the unconsumed alerts by user
and build one case per group. -/
def build_user_cases (alerts : List Alert) (processed : List String) : List Case :=
  (firstKeys ((remainingAlerts alerts processed).map (fun a => a.user_id))).map
    (build_user_case_for alerts processed)

/-- Model of `CaseBuilder.build_cases`: pass 1 (fraud rings by shared device),
then pass 2 (per-user grouping of the unconsumed alerts). -/
def build_cases (alerts : List Alert) : List Case :=
  if alerts.isEmpty then []
  else
    let pass1 := build_fraud_ring_cases alerts []
    pass1.1 ++ build_user_cases alerts pass1.2

/-- The spec's stated case-score formula, verbatim from its words:
`round(min(95, ((avg_confidence + max_confidence)/2)·100 +
alert_count_bonus))` with the bonus capped at 20 points. -/
def specCaseScore (alerts : List Alert) : ℤ :=
  round (min (95 : ℚ)
    ((avgConf alerts + maxConf alerts) / 2 * 100 + min ((alerts.length : ℚ) * 5) 20))

/-- The spec's ring-detection example batch: four alerts from four
distinct users sharing one device. -/
def ringExample : List Alert :=
  [⟨"A1", "U1", "acc1", 8/10, "behavioral_anomaly", "DEV1", "ip1", 0⟩,
   ⟨"A2", "U2", "acc2", 8/10, "behavioral_anomaly", "DEV1", "ip1", 0⟩,
   ⟨"A3", "U3", "acc3", 8/10, "behavioral_anomaly", "DEV1", "ip1", 0⟩,
   ⟨"A4", "U4", "acc4", 8/10, "behavioral_anomaly", "DEV1", "ip1", 0⟩]

/-!
## Theorems
-/

theorem mem_firstKeys {α : Type} [DecidableEq α] (l : List α) (a : α) :
    a ∈ firstKeys l ↔ a ∈ l := by
  induction l using firstKeys.induct with
  | case1 => simp [firstKeys]
  | case2 k ks ih =>
    simp only [firstKeys, List.mem_cons, ih, List.mem_filter]
    by_cases h : a = k <;> simp [h]

theorem nodup_firstKeys {α : Type} [DecidableEq α] (l : List α) :
    (firstKeys l).Nodup := by
  induction l using firstKeys.induct with
  | case1 => simp [firstKeys]
  | case2 k ks ih =>
    simp only [firstKeys, List.nodup_cons]
    refine ⟨?_, ih⟩
    intro hk
    rw [mem_firstKeys] at hk
    have := (List.mem_filter.mp hk).2
    simp at this

/-- C3: fraud-type inference is first-match-wins over the spec's ordered
rule list: for every row (with a positive declared income, the domain the
profile data provides), the inferred fraud type equals the label of the
first predicate that holds in the precedence
ring → multi-account → account-takeover → income → geo → mule-flow →
structuring → behavioral; an earlier match makes later predicates
irrelevant. -/
theorem fraud_type_first_match (row : Row) (hinc : 0 < row.declared_income) :
    (infer_fraud_type row).1 = firstMatchLabel fraudRules row := by
  unfold infer_fraud_type fraudRules
  simp only [firstMatchLabel]
  by_cases h1 : strContainsUpper row.user_id ['R', 'I', 'N', 'G'] = true
  · rw [if_pos h1, if_pos h1]
  · rw [if_neg h1, if_neg h1]
    by_cases h2 : strContainsUpper row.user_id ['M', 'U', 'L', 'T', 'I'] = true
    · rw [if_pos h2, if_pos h2]
    · rw [if_neg h2, if_neg h2]
      by_cases h3 : 3 ≤ row.failed_login_1h ∨ (row.geo_change_1d = 1 ∧ row.new_ip_1d = 1)
      · rw [if_pos h3, if_pos (decide_eq_true h3)]
      · rw [if_neg h3, if_neg (fun hc => h3 (of_decide_eq_true hc))]
        by_cases h4 : 1/2 < row.amount / row.declared_income
        · rw [if_pos ⟨hinc, h4⟩, if_pos (decide_eq_true h4)]
        · rw [if_neg (fun hc => h4 hc.2), if_neg (fun hc => h4 (of_decide_eq_true hc))]
          by_cases h5 : row.is_cross_border = 1 ∧ row.geo_change_1d = 1
          · rw [if_pos h5, if_pos (decide_eq_true h5)]
          · rw [if_neg h5, if_neg (fun hc => h5 (of_decide_eq_true hc))]
            by_cases h6 : 5000 < row.amount_in_1d ∧ 5000 < row.amount_out_1d
            · rw [if_pos h6, if_pos (decide_eq_true h6)]
            · rw [if_neg h6, if_neg (fun hc => h6 (of_decide_eq_true hc))]
              by_cases h7 : 8000 ≤ row.amount ∧ row.amount ≤ 9999
              · rw [if_pos h7, if_pos (decide_eq_true h7)]
              · rw [if_neg h7, if_neg (fun hc => h7 (of_decide_eq_true hc))]
                simp

/-- C3 witness: the spec's own example — declared_income 2000,
amount 1200 (ratio 0.6 > 0.5, no earlier rule firing) infers
income_anomaly, matching the first-match evaluation. -/
theorem fraud_type_first_match_witness :
    (0 : ℚ) < 2000 ∧
      (infer_fraud_type ⟨"U1", 0, 0, 0, 1200, 2000, 0, 0, 0⟩).1 =
        firstMatchLabel fraudRules ⟨"U1", 0, 0, 0, 1200, 2000, 0, 0, 0⟩ ∧
      (infer_fraud_type ⟨"U1", 0, 0, 0, 1200, 2000, 0, 0, 0⟩).1 = "income_anomaly" :=
  ⟨by norm_num,
   fraud_type_first_match ⟨"U1", 0, 0, 0, 1200, 2000, 0, 0, 0⟩ (by norm_num),
   by norm_num [infer_fraud_type, strContainsUpper, upperChar]; decide⟩

/-- C5: alert severity is the pure bucket function of the anomaly score —
CRITICAL iff score > 0.7, HIGH iff 0.5 < score ≤ 0.7, MEDIUM iff
0.3 < score ≤ 0.5, LOW iff score ≤ 0.3 — hence monotone non-decreasing in
the score, with 0.69 ↦ HIGH and 0.71 ↦ CRITICAL. -/
theorem severity_buckets_monotone :
    (∀ s : ℚ,
      (calculate_severity s = "CRITICAL" ↔ s > 7/10) ∧
      (calculate_severity s = "HIGH" ↔ (5/10 < s ∧ s ≤ 7/10)) ∧
      (calculate_severity s = "MEDIUM" ↔ (3/10 < s ∧ s ≤ 5/10)) ∧
      (calculate_severity s = "LOW" ↔ s ≤ 3/10)) ∧
    (∀ s₁ s₂ : ℚ, s₁ ≤ s₂ →
      severityRank (calculate_severity s₁) ≤ severityRank (calculate_severity s₂)) ∧
    calculate_severity (69/100) = "HIGH" ∧
    calculate_severity (71/100) = "CRITICAL" := by
  refine ⟨fun s => ?_, fun s₁ s₂ h => ?_,
    by norm_num [calculate_severity], by norm_num [calculate_severity]⟩
  · unfold calculate_severity
    split_ifs with hA hB hC
    · exact ⟨iff_of_true rfl hA,
        iff_of_false (by decide) (by rintro ⟨-, h2⟩; linarith),
        iff_of_false (by decide) (by rintro ⟨-, h2⟩; linarith),
        iff_of_false (by decide) (by intro h2; linarith)⟩
    · exact ⟨iff_of_false (by decide) hA,
        iff_of_true rfl ⟨hB, not_lt.mp hA⟩,
        iff_of_false (by decide) (by rintro ⟨-, h2⟩; linarith),
        iff_of_false (by decide) (by intro h2; linarith)⟩
    · exact ⟨iff_of_false (by decide) hA,
        iff_of_false (by decide) (by rintro ⟨h1, -⟩; exact hB h1),
        iff_of_true rfl ⟨hC, not_lt.mp hB⟩,
        iff_of_false (by decide) (by intro h2; linarith)⟩
    · exact ⟨iff_of_false (by decide) hA,
        iff_of_false (by decide) (by rintro ⟨h1, -⟩; exact hB h1),
        iff_of_false (by decide) (by rintro ⟨h1, -⟩; exact hC h1),
        iff_of_true rfl (not_lt.mp hC)⟩
  · unfold calculate_severity
    split_ifs <;> first | decide | linarith

/-- C5 witness: instantiating the monotonicity component at 0.2 ≤ 0.6. -/
theorem severity_buckets_monotone_witness :
    severityRank (calculate_severity (2/10)) ≤ severityRank (calculate_severity (6/10)) :=
  severity_buckets_monotone.2.1 (2/10) (6/10) (by norm_num)

/-- C6: every output row of `Predictor.predict` is flagged anomalous
exactly when its stored anomaly score strictly exceeds the effective
threshold (the override when supplied, else the artifact threshold);
concretely, with threshold 0.3 a batch normalizing to scores
1, 0.31, 0.3, 0 flags the first two rows only (0.31 > 0.3 is flagged and
gets severity MEDIUM; a score equal to the threshold is not flagged). -/
theorem is_anomaly_iff_score_above_threshold :
    (∀ (raw : List ℚ) (mthr : ℚ) (ov : Option ℚ),
      ∀ p ∈ predict raw mthr ov, p.2 = decide (ov.getD mthr < p.1)) ∧
    predict [-1, -31/100, -3/10, 0] (3/10) none =
      [(1, true), (31/100, true), (3/10, false), (0, false)] ∧
    calculate_severity (31/100) = "MEDIUM" := by
  refine ⟨?_, ?_, by norm_num [calculate_severity]⟩
  · intro raw mthr ov p hp
    unfold predict at hp
    simp only [List.mem_map] at hp
    obtain ⟨s, -, rfl⟩ := hp
    rfl
  · norm_num [predict, listMin, listMax]

/-- C6 witness: the flag/score equivalence applied to the first row of a
concrete batch. -/
theorem is_anomaly_iff_score_above_threshold_witness :
    ((1 : ℚ), true).2 = decide ((none : Option ℚ).getD (3/10) < ((1 : ℚ), true).1) :=
  is_anomaly_iff_score_above_threshold.1 [-1, -31/100, -3/10, 0] (3/10) none
    ((1 : ℚ), true)
    (by rw [is_anomaly_iff_score_above_threshold.2.1]; simp)

theorem foldl_min_const (c : ℚ) (xs : List ℚ) (h : ∀ x ∈ xs, x = c) :
    xs.foldl min c = c := by
  induction xs with
  | nil => rfl
  | cons y ys ih =>
    have hy : y = c := h y (List.mem_cons_self y ys)
    simp only [List.foldl_cons, hy, min_self]
    exact ih (fun x hx => h x (List.mem_cons_of_mem y hx))

theorem foldl_max_const (c : ℚ) (xs : List ℚ) (h : ∀ x ∈ xs, x = c) :
    xs.foldl max c = c := by
  induction xs with
  | nil => rfl
  | cons y ys ih =>
    have hy : y = c := h y (List.mem_cons_self y ys)
    simp only [List.foldl_cons, hy, max_self]
    exact ih (fun x hx => h x (List.mem_cons_of_mem y hx))

/-- C10: on a batch whose raw decision-function scores are all identical
(in particular a single-row batch), min-max normalization degenerates:
every output anomaly score is exactly 0, so for any non-negative
effective threshold no row is flagged anomalous. -/
theorem uniform_batch_never_anomalous
    (raw : List ℚ) (mthr : ℚ) (ov : Option ℚ) (c : ℚ)
    (huniform : ∀ x ∈ raw, x = c) (hthr : 0 ≤ ov.getD mthr) :
    ∀ p ∈ predict raw mthr ov, p.1 = 0 ∧ p.2 = false := by
  intro p hp
  have hconst : ∀ y ∈ raw.map (fun r => -r), y = -c := by
    intro y hy
    obtain ⟨x, hx, rfl⟩ := List.mem_map.mp hy
    rw [huniform x hx]
  have hmm : listMin (raw.map (fun r => -r)) = listMax (raw.map (fun r => -r)) := by
    unfold listMin listMax
    cases hraw : raw.map (fun r => -r) with
    | nil => rfl
    | cons y ys =>
      have hy : y = -c := hconst y (hraw ▸ List.mem_cons_self y ys)
      have hys : ∀ x ∈ ys, x = -c := fun x hx =>
        hconst x (hraw ▸ List.mem_cons_of_mem y hx)
      rw [hy]
      show ys.foldl min (-c) = ys.foldl max (-c)
      rw [foldl_min_const (-c) ys hys, foldl_max_const (-c) ys hys]
  simp only [predict, hmm, lt_self_iff_false, if_false, List.map_map,
    List.mem_map] at hp
  obtain ⟨x, -, rfl⟩ := hp
  exact ⟨rfl, decide_eq_false (not_lt.mpr hthr)⟩

/-- C10 witness: a concrete uniform two-row batch with threshold 0.3 is
entirely unflagged. -/
theorem uniform_batch_never_anomalous_witness :
    ((0 : ℚ), false).1 = 0 ∧ ((0 : ℚ), false).2 = false :=
  uniform_batch_never_anomalous [5, 5] (3/10) none 5
    (by intro x hx; simpa using hx) (by norm_num)
    ((0 : ℚ), false) (by norm_num [predict, listMin, listMax])

theorem ewmaGo_take (l₁ l₂ : List ℚ) :
    ∀ num den, (ewmaGo (l₁ ++ l₂) num den).take l₁.length = ewmaGo l₁ num den := by
  induction l₁ with
  | nil => intro num den; simp [ewmaGo]
  | cons x xs ih =>
    intro num den
    simp only [List.cons_append, ewmaGo, List.length_cons, List.take_succ_cons,
      List.append_eq]
    rw [ih]

theorem gapArgsGo_take (l₁ l₂ : List ℚ) :
    ∀ prev, (gapArgsGo prev (l₁ ++ l₂)).take l₁.length = gapArgsGo prev l₁ := by
  induction l₁ with
  | nil => intro prev; simp [gapArgsGo]
  | cons x xs ih =>
    intro prev
    simp only [List.cons_append, gapArgsGo, List.length_cons, List.take_succ_cons,
      List.append_eq]
    rw [ih]

theorem take_zip {α β : Type} (l : List α) (l' : List β) (n : ℕ) :
    (l.zip l').take n = (l.take n).zip (l'.take n) := by
  induction l generalizing l' n with
  | nil => simp
  | cons x xs ih =>
    cases l' with
    | nil => simp
    | cons y ys =>
      cases n with
      | zero => simp
      | succ m => simp [List.zip_cons_cons, ih]

/-- C2 (amended): `ewma_resid` and `gap_log` are prefix-determined — the
value at each position of a user's time-ordered series depends only on
the series up to that position, so appending strictly-later events leaves
them unchanged.  (`mod_z_score_abs`, by contrast, is computed from the
user's whole batch: see the counterexample.) -/
theorem ewma_gap_no_lookahead (pre post : List ℚ) :
    (ewma_resid (pre ++ post)).take pre.length = ewma_resid pre ∧
    (gap_args (pre ++ post)).take pre.length = gap_args pre := by
  constructor
  · unfold ewma_resid ewm_mean
    rw [← List.map_take, take_zip, List.take_left, ewmaGo_take]
  · cases pre with
    | nil => simp [gap_args]
    | cons t ts =>
      simp only [List.cons_append, gap_args, List.length_cons, List.take_succ_cons]
      rw [gapArgsGo_take]

theorem gapArgsGo_getD (l : List ℚ) :
    ∀ (prev : ℚ) (j : ℕ), j < l.length →
      (gapArgsGo prev l).getD j 0 =
        max ((l.getD j 0 - (if j = 0 then prev else l.getD (j - 1) 0)) / 3600) (1/100) := by
  induction l with
  | nil => intro prev j hj; simp at hj
  | cons t ts ih =>
    intro prev j hj
    cases j with
    | zero => simp [gapArgsGo]
    | succ m =>
      simp only [gapArgsGo, List.getD_cons_succ]
      rw [ih t m (by simpa using hj)]
      cases m with
      | zero => simp [List.getD_cons_zero]
      | succ k => simp

/-- C9 (amended): for every transaction that is not the user's first,
the argument of `gap_log`'s `log1p` is the number of *hours* (not
seconds) since the user's previous transaction, clipped below at 0.01;
for a user's first transaction it defaults to the constant 24 (hours),
not a dataset-median-derived value. -/
theorem gap_args_spec (times : List ℚ) (i : ℕ) (hi : i < times.length) :
    (gap_args times).getD i 0 =
      if i = 0 then 24
      else max ((times.getD i 0 - times.getD (i - 1) 0) / 3600) (1/100) := by
  cases times with
  | nil => simp at hi
  | cons t ts =>
    cases i with
    | zero =>
      simp only [gap_args, List.getD_cons_zero, if_pos rfl]
      norm_num
    | succ m =>
      simp only [gap_args, List.getD_cons_succ, Nat.succ_ne_zero, if_false]
      rw [gapArgsGo_getD ts t m (by simpa using hi)]
      cases m with
      | zero => simp [List.getD_cons_zero]
      | succ k => simp

/-- C9 witness: the amended characterization evaluated on a user whose
two transactions are 7200 seconds apart — the second gap argument is
7200/3600 = 2 hours. -/
theorem gap_args_spec_witness :
    (1 : ℕ) < ([0, 7200] : List ℚ).length ∧
      (gap_args [0, 7200]).getD 1 0 =
        (if (1 : ℕ) = 0 then 24
         else max ((([0, 7200] : List ℚ).getD 1 0 - ([0, 7200] : List ℚ).getD 0 0) / 3600)
           (1/100)) :=
  ⟨by norm_num, gap_args_spec [0, 7200] 1 (by norm_num)⟩

/-- C2 amended-claim witness: prefix determinism evaluated on a concrete
split of a three-element series. -/
theorem ewma_gap_no_lookahead_witness :
    (ewma_resid ([1, 2] ++ [3])).take ([1, 2] : List ℚ).length = ewma_resid [1, 2] ∧
    (gap_args ([1, 2] ++ [3])).take ([1, 2] : List ℚ).length = gap_args [1, 2] :=
  ewma_gap_no_lookahead [1, 2] [3]

/-- C2 counterexample: two runs for user "u" agreeing on all events at or
before time t = 2 — the second run adds events only at times 3 and 4 —
give a *different* `mod_z_score_abs` to the transaction at time 1:
5000/7413 in the first run but 27500/7413 in the second, because the
median and MAD are taken over the user's entire batch, future
transactions included.  (The zero-MAD std fallback is not taken on either
run, so the result is independent of the std function; it is instantiated
with the constant 0.) -/
theorem mod_z_lookahead_counterexample :
    ([⟨"u", 1, 10⟩, ⟨"u", 2, 20⟩, ⟨"u", 3, 22⟩, ⟨"u", 4, 24⟩] : List Txn).filter
        (fun a => a.event_time ≤ 2) = [⟨"u", 1, 10⟩, ⟨"u", 2, 20⟩] ∧
    (mod_z_for (fun _ => 0) [⟨"u", 1, 10⟩, ⟨"u", 2, 20⟩] "u").getD 0 0 = 5000/7413 ∧
    (mod_z_for (fun _ => 0)
        [⟨"u", 1, 10⟩, ⟨"u", 2, 20⟩, ⟨"u", 3, 22⟩, ⟨"u", 4, 24⟩] "u").getD 0 0
      = 27500/7413 ∧
    (5000/7413 : ℚ) ≠ 27500/7413 := by
  refine ⟨?_, ?_, ?_, by norm_num⟩
  · norm_num [List.filter]
  · norm_num [mod_z_for, userAmounts, sortTxns, List.insertionSort, List.orderedInsert,
      txnLe, mod_z_score, median]
  · norm_num [mod_z_for, userAmounts, sortTxns, List.insertionSort, List.orderedInsert,
      txnLe, mod_z_score, median]

/-- C9 counterexample: two transactions 7200 seconds apart give
`gap_args` entry 2 (hours), not 7200 (seconds): since `log1p` is
injective on positives, `gap_log = log1p(2) ≠ log1p(7200)`, refuting
"gap_log equals log1p of the number of seconds since the user's previous
transaction". -/
theorem gap_log_seconds_counterexample :
    (gap_args [0, 7200]).getD 1 0 = 2 ∧
    Real.log (1 + ((gap_args [0, 7200]).getD 1 0 : ℚ)) ≠ Real.log (1 + (7200 : ℚ)) := by
  have h2 : (gap_args [0, 7200]).getD 1 0 = 2 := by
    norm_num [gap_args, gapArgsGo]
  refine ⟨h2, ?_⟩
  rw [h2]
  have : Real.log (1 + ((2 : ℚ) : ℝ)) < Real.log (1 + ((7200 : ℚ) : ℝ)) := by
    apply Real.log_lt_log <;> norm_num
  exact ne_of_lt this

theorem le_foldl_max (l : List ℚ) : ∀ x : ℚ, x ≤ l.foldl max x := by
  induction l with
  | nil => intro x; exact le_refl x
  | cons y ys ih =>
    intro x
    exact le_trans (le_max_left x y) (ih (max x y))

theorem listMax_nonneg (l : List ℚ) (h : ∀ x ∈ l, 0 ≤ x) : 0 ≤ listMax l := by
  cases l with
  | nil => exact le_refl 0
  | cons x xs =>
    exact le_trans (h x (List.mem_cons_self x xs)) (le_foldl_max xs x)

theorem pyInt_eq_floor {q : ℚ} (h : 0 ≤ q) : pyInt q = ⌊q⌋ := by
  unfold pyInt
  rw [if_pos h]

theorem pyInt_le {q : ℚ} {n : ℤ} (hq : q ≤ n) (hn : 0 ≤ n) : pyInt q ≤ n := by
  unfold pyInt
  split_ifs with h
  · calc ⌊q⌋ ≤ ⌊(n : ℚ)⌋ := Int.floor_le_floor hq
      _ = n := Int.floor_intCast n
  · have : (0 : ℚ) ≤ -q := by linarith [not_le.mp h]
    have h0 : (0 : ℤ) ≤ ⌊-q⌋ := Int.floor_nonneg.mpr this
    omega

/-- C4 counterexample: a single alert with confidence 0.336 gives
`(0.336+0.336)/2·100 + 5 = 38.6`; the source's `int(...)` truncates to
38, while the spec's `round(...)` gives 39 — so the claimed
`case_score = round(min(95, ...))` is false at this input. -/
theorem case_score_round_counterexample :
    (build_single_case [⟨"A1", "u", "acc", 336/1000, "t", "unknown", "", 0⟩] "x").case_score
        = 38 ∧
    specCaseScore [⟨"A1", "u", "acc", 336/1000, "t", "unknown", "", 0⟩] = 39 ∧
    (38 : ℤ) ≠ 39 := by
  refine ⟨?_, ?_, by norm_num⟩
  · norm_num [build_single_case, avgConf, maxConf, listMax, pyInt]
  · norm_num [specCaseScore, avgConf, maxConf, listMax]
    rw [round_eq]
    norm_num

/-- C4 (amended): the case score is the *truncation* (Python `int`, i.e.
floor on these non-negative values) of
`min(95, ((avg_confidence+max_confidence)/2)·100 + bonus)` where the
bonus `min(5·alert_count, 20)` never exceeds 20 points; hence case_score
never exceeds 95; and risk_level is determined from case_score by
≥80 CRITICAL, ≥60 HIGH, ≥40 MEDIUM, else LOW. -/
theorem case_score_truncation_cap_risk (alerts : List Alert) (ft : String)
    (hconf : ∀ a ∈ alerts, 0 ≤ a.confidence) :
    (build_single_case alerts ft).case_score =
      ⌊min (95 : ℚ)
        ((avgConf alerts + maxConf alerts) / 2 * 100 + min ((alerts.length : ℚ) * 5) 20)⌋ ∧
    min ((alerts.length : ℚ) * 5) 20 ≤ 20 ∧
    (build_single_case alerts ft).case_score ≤ 95 ∧
    (build_single_case alerts ft).risk_level =
      (if 80 ≤ (build_single_case alerts ft).case_score then "CRITICAL"
       else if 60 ≤ (build_single_case alerts ft).case_score then "HIGH"
       else if 40 ≤ (build_single_case alerts ft).case_score then "MEDIUM"
       else "LOW") := by
  have hmax : 0 ≤ maxConf alerts := by
    apply listMax_nonneg
    intro x hx
    obtain ⟨a, ha, rfl⟩ := List.mem_map.mp hx
    exact hconf a ha
  have havg : 0 ≤ avgConf alerts := by
    unfold avgConf
    split_ifs with h
    · exact le_refl 0
    · apply div_nonneg
      · apply List.sum_nonneg
        intro x hx
        obtain ⟨a, ha, rfl⟩ := List.mem_map.mp hx
        exact hconf a ha
      · positivity
  have hbonus : (0 : ℚ) ≤ min ((alerts.length : ℚ) * 5) 20 := by
    apply le_min
    · positivity
    · norm_num
  have hfac2 : min ((alerts.length : ℚ) * (5/100)) (2/10) * 100
      = min ((alerts.length : ℚ) * 5) 20 := by
    have e1 : ((alerts.length : ℚ) * (5/100)) * 100 = (alerts.length : ℚ) * 5 := by ring
    have e2 : ((2 : ℚ)/10) * 100 = 20 := by norm_num
    rw [min_mul_of_nonneg _ _ (by norm_num : (0:ℚ) ≤ 100), e1, e2]
  have harg : (0 : ℚ) ≤ min 95
      ((avgConf alerts + maxConf alerts) / 2 * 100 + min ((alerts.length : ℚ) * 5) 20) := by
    apply le_min
    · norm_num
    · have : (0 : ℚ) ≤ (avgConf alerts + maxConf alerts) / 2 * 100 := by positivity
      linarith
  have hscore : (build_single_case alerts ft).case_score =
      pyInt (min 95
        ((avgConf alerts + maxConf alerts) / 2 * 100 + min ((alerts.length : ℚ) * 5) 20)) := by
    simp only [build_single_case, hfac2]
  refine ⟨?_, min_le_right _ _, ?_, ?_⟩
  · rw [hscore, pyInt_eq_floor harg]
  · rw [hscore]
    apply pyInt_le _ (by norm_num)
    exact_mod_cast min_le_left _ _
  · simp only [build_single_case, hfac2, ge_iff_le]

/-- C4 amended-claim witness: the truncation/cap/threshold facts at a
concrete single-alert group (confidence 0.336, score 38 = ⌊38.6⌋, LOW). -/
theorem case_score_truncation_cap_risk_witness :
    (build_single_case [⟨"A1", "u", "acc", 336/1000, "t", "unknown", "", 0⟩] "x").case_score =
      ⌊min (95 : ℚ)
        ((avgConf [⟨"A1", "u", "acc", 336/1000, "t", "unknown", "", 0⟩]
            + maxConf [⟨"A1", "u", "acc", 336/1000, "t", "unknown", "", 0⟩]) / 2 * 100
          + min ((([⟨"A1", "u", "acc", 336/1000, "t", "unknown", "", 0⟩] : List Alert).length : ℚ)
              * 5) 20)⌋ :=
  (case_score_truncation_cap_risk [⟨"A1", "u", "acc", 336/1000, "t", "unknown", "", 0⟩] "x"
    (by intro a ha; simp at ha; rw [ha]; norm_num)).1

theorem countP_eq_one_of_nodup_mem {α : Type} [DecidableEq α] (l : List α) (d : α)
    (hnd : l.Nodup) (hm : d ∈ l) :
    l.countP (fun x => decide (x = d)) = 1 := by
  induction l with
  | nil => simp at hm
  | cons x xs ih =>
    by_cases hxd : x = d
    · rw [List.countP_cons_of_pos _ _ (by simp [hxd])]
      have hdn : d ∉ xs := hxd ▸ (List.nodup_cons.mp hnd).1
      have hz : xs.countP (fun y => decide (y = d)) = 0 :=
        List.countP_eq_zero.mpr (fun a ha => by
          simp only [decide_eq_true_eq]
          intro he
          exact hdn (he ▸ ha))
      rw [hz]
    · rw [List.countP_cons_of_neg _ _ (by simp [hxd])]
      exact ih (List.nodup_cons.mp hnd).2
        (by rcases List.mem_cons.mp hm with h | h
            · exact absurd h.symm hxd
            · exact h)

/-- C7: pass 1 builds, for every device whose alert group spans more than
one distinct user, exactly one fraud_ring case; that case contains every
alert on the device, records the member user set and the shared
device/IP, and all its alerts are marked consumed.  In particular the
spec's example — 4 alerts from 4 distinct users on one shared device —
yields exactly that one ring case with 4 members and zero per-user
cases. -/
theorem fraud_ring_pass :
    (∀ (alerts : List Alert) (d : String),
      1 < (deviceUsers alerts d).length →
        ((build_fraud_ring_cases alerts []).1.countP
            (fun c => decide (c.shared_device = some d)) = 1 ∧
         mkRingCase alerts d ∈ (build_fraud_ring_cases alerts []).1 ∧
         (mkRingCase alerts d).fraud_type = "fraud_ring" ∧
         (mkRingCase alerts d).alert_ids =
           (deviceGroup alerts d).map (fun a => a.alert_id) ∧
         (mkRingCase alerts d).ring_members = some (deviceUsers alerts d) ∧
         (∀ u, u ∈ deviceUsers alerts d ↔ ∃ a ∈ deviceGroup alerts d, a.user_id = u) ∧
         (mkRingCase alerts d).shared_device = some d ∧
         (mkRingCase alerts d).shared_ip =
           some ((deviceGroup alerts d).headD dummyAlert).ip_address ∧
         ∀ a ∈ deviceGroup alerts d,
           a.alert_id ∈ (build_fraud_ring_cases alerts []).2)) ∧
    build_cases ringExample = [mkRingCase ringExample "DEV1"] ∧
    (mkRingCase ringExample "DEV1").ring_members = some ["U1", "U2", "U3", "U4"] ∧
    (mkRingCase ringExample "DEV1").alert_count = 4 ∧
    build_user_cases ringExample (build_fraud_ring_cases ringExample []).2 = [] := by
  refine ⟨?_, ?_, ?_, ?_, ?_⟩
  · intro alerts d husers
    have hgrp : ∃ a, a ∈ deviceGroup alerts d := by
      by_contra h
      push_neg at h
      have hnil : deviceGroup alerts d = [] := List.eq_nil_iff_forall_not_mem.mpr h
      rw [deviceUsers, hnil] at husers
      simp [firstKeys] at husers
    obtain ⟨a, ha⟩ := hgrp
    have hadev : a ∈ devAlertsOf alerts := (List.mem_filter.mp ha).1
    have had : a.device_id = d := by
      have := (List.mem_filter.mp ha).2
      simpa using this
    have hring : d ∈ ringDevices alerts := by
      refine List.mem_filter.mpr ⟨?_, decide_eq_true husers⟩
      rw [mem_firstKeys]
      exact had ▸ List.mem_map_of_mem _ hadev
    have hnd : (ringDevices alerts).Nodup := (nodup_firstKeys _).filter _
    refine ⟨?_, List.mem_map_of_mem _ hring, rfl, rfl, rfl, ?_, rfl, rfl, ?_⟩
    · show ((ringDevices alerts).map (mkRingCase alerts)).countP _ = 1
      rw [List.countP_map]
      have hc : (ringDevices alerts).countP
            ((fun c => decide (c.shared_device = some d)) ∘ mkRingCase alerts)
          = (ringDevices alerts).countP (fun x => decide (x = d)) :=
        List.countP_congr (fun d' _ => by simp [Function.comp, mkRingCase])
      rw [hc]
      exact countP_eq_one_of_nodup_mem _ _ hnd hring
    · intro u
      simp [deviceUsers, mem_firstKeys]
    · intro b hb
      simp only [build_fraud_ring_cases, List.nil_append, List.mem_flatMap]
      exact ⟨d, hring, List.mem_map_of_mem _ hb⟩
  · simp [build_cases, build_fraud_ring_cases, build_user_cases, remainingAlerts,
      ringDevices, deviceUsers, deviceGroup, devAlertsOf, ringExample, firstKeys]
  · simp [mkRingCase, deviceUsers, deviceGroup, devAlertsOf, ringExample, firstKeys]
  · simp [mkRingCase, build_single_case, deviceGroup, devAlertsOf, ringExample]
  · simp [build_user_cases, build_fraud_ring_cases, remainingAlerts, ringDevices,
      deviceUsers, deviceGroup, devAlertsOf, ringExample, firstKeys]

/-- C7 witness: the general pass-1 property applied to the example batch
and its shared device. -/
theorem fraud_ring_pass_witness :
    (build_fraud_ring_cases ringExample []).1.countP
      (fun c => decide (c.shared_device = some "DEV1")) = 1 :=
  (fraud_ring_pass.1 ringExample "DEV1"
    (by simp [deviceUsers, deviceGroup, devAlertsOf, ringExample, firstKeys])).1

theorem foldl_best_ge (l : List String) (ks : List String) :
    ∀ (k y : String), (y = k ∨ y ∈ ks) →
      l.count y ≤
        l.count (ks.foldl (fun best x => if l.count best < l.count x then x else best) k) := by
  induction ks with
  | nil =>
    intro k y hy
    rcases hy with rfl | h
    · exact le_refl _
    · simp at h
  | cons x ks' ih =>
    intro k y hy
    simp only [List.foldl_cons]
    by_cases hc : l.count k < l.count x
    · rw [if_pos hc]
      rcases hy with rfl | hm
      · exact le_trans (le_of_lt hc) (ih _ _ (Or.inl rfl))
      · rcases List.mem_cons.mp hm with rfl | hm'
        · exact ih _ _ (Or.inl rfl)
        · exact ih _ _ (Or.inr hm')
    · rw [if_neg hc]
      rcases hy with rfl | hm
      · exact ih _ _ (Or.inl rfl)
      · rcases List.mem_cons.mp hm with rfl | hm'
        · exact le_trans (not_lt.mp hc) (ih _ _ (Or.inl rfl))
        · exact ih _ _ (Or.inr hm')

theorem count_mostFrequent_ge (l : List String) (x : String) (hx : x ∈ l) :
    l.count x ≤ l.count (mostFrequent l) := by
  have hx' : x ∈ firstKeys l := (mem_firstKeys l x).mpr hx
  cases hks : firstKeys l with
  | nil => rw [hks] at hx'; simp at hx'
  | cons k ks =>
    rw [hks] at hx'
    simp only [mostFrequent, hks]
    exact foldl_best_ge l ks k x
      (by rcases List.mem_cons.mp hx' with h | h
          · exact Or.inl h
          · exact Or.inr h)

/-- C8: every pass-2 user group yields a case holding exactly that
group's alerts; when the group spans more than one distinct account the
case's fraud type is forced to multi_account_fraud with the involved
accounts recorded, and otherwise the case's fraud type is a most frequent
`fraud_type_inferred` of the group (its multiplicity is maximal). -/
theorem user_pass_grouping (alerts : List Alert) (processed : List String) (u : String)
    (hu : u ∈ firstKeys ((remainingAlerts alerts processed).map (fun a => a.user_id))) :
    ∃ c ∈ build_user_cases alerts processed,
      c.alert_ids = (userGroup alerts processed u).map (fun a => a.alert_id) ∧
      (1 < (userAccounts alerts processed u).length →
        c.fraud_type = "multi_account_fraud" ∧
        c.accounts_involved = some (userAccounts alerts processed u) ∧
        ∀ x, x ∈ userAccounts alerts processed u ↔
          ∃ a ∈ userGroup alerts processed u, a.account_id = x) ∧
      (¬ 1 < (userAccounts alerts processed u).length →
        c.fraud_type =
          mostFrequent ((userGroup alerts processed u).map (fun a => a.fraud_type_inferred)) ∧
        ∀ t ∈ (userGroup alerts processed u).map (fun a => a.fraud_type_inferred),
          ((userGroup alerts processed u).map (fun a => a.fraud_type_inferred)).count t ≤
            ((userGroup alerts processed u).map (fun a => a.fraud_type_inferred)).count
              c.fraud_type) := by
  refine ⟨_, List.mem_map_of_mem _ hu, ?_, ?_, ?_⟩
  · by_cases hacc : 1 < (userAccounts alerts processed u).length
    · simp [hacc, build_user_case_for, build_single_case]
    · by_cases hmf : mostFrequent
          ((userGroup alerts processed u).map (fun a => a.fraud_type_inferred))
          = "multi_account_fraud"
      · simp [hacc, hmf, build_user_case_for, build_single_case]
      · simp [hacc, hmf, build_user_case_for, build_single_case]
  · intro hacc
    refine ⟨?_, ?_, ?_⟩
    · simp [hacc, build_user_case_for, build_single_case]
    · simp [hacc, build_user_case_for]
    · intro x
      simp [userAccounts, mem_firstKeys]
  · intro hacc
    constructor
    · by_cases hmf : mostFrequent
          ((userGroup alerts processed u).map (fun a => a.fraud_type_inferred))
          = "multi_account_fraud"
      · rw [hmf]
        simp [hacc, hmf, build_user_case_for, build_single_case]
      · simp [hacc, hmf, build_user_case_for, build_single_case]
    · intro t ht
      have hle := count_mostFrequent_ge _ t ht
      by_cases hmf : mostFrequent
          ((userGroup alerts processed u).map (fun a => a.fraud_type_inferred))
          = "multi_account_fraud"
      · rw [show (build_user_case_for alerts processed u).fraud_type
            = mostFrequent ((userGroup alerts processed u).map
                (fun a => a.fraud_type_inferred)) from by
          rw [hmf]
          simp [hacc, hmf, build_user_case_for, build_single_case]]
        exact hle
      · rw [show (build_user_case_for alerts processed u).fraud_type
            = mostFrequent ((userGroup alerts processed u).map
                (fun a => a.fraud_type_inferred)) from by
          simp [hacc, hmf, build_user_case_for, build_single_case]]
        exact hle

/-- C8 witness: a two-alert group of one user spanning two accounts is
forced to multi_account_fraud with both accounts recorded. -/
theorem user_pass_grouping_witness :
    ∃ c ∈ build_user_cases
        [⟨"A1", "u1", "acc1", 1/2, "behavioral_anomaly", "unknown", "", 0⟩,
         ⟨"A2", "u1", "acc2", 1/2, "income_anomaly", "unknown", "", 0⟩] [],
      c.alert_ids = (userGroup
        [⟨"A1", "u1", "acc1", 1/2, "behavioral_anomaly", "unknown", "", 0⟩,
         ⟨"A2", "u1", "acc2", 1/2, "income_anomaly", "unknown", "", 0⟩] [] "u1").map
          (fun a => a.alert_id) ∧
      (1 < (userAccounts
          [⟨"A1", "u1", "acc1", 1/2, "behavioral_anomaly", "unknown", "", 0⟩,
           ⟨"A2", "u1", "acc2", 1/2, "income_anomaly", "unknown", "", 0⟩] [] "u1").length →
        c.fraud_type = "multi_account_fraud" ∧
        c.accounts_involved = some (userAccounts
          [⟨"A1", "u1", "acc1", 1/2, "behavioral_anomaly", "unknown", "", 0⟩,
           ⟨"A2", "u1", "acc2", 1/2, "income_anomaly", "unknown", "", 0⟩] [] "u1") ∧
        ∀ x, x ∈ userAccounts
            [⟨"A1", "u1", "acc1", 1/2, "behavioral_anomaly", "unknown", "", 0⟩,
             ⟨"A2", "u1", "acc2", 1/2, "income_anomaly", "unknown", "", 0⟩] [] "u1" ↔
          ∃ a ∈ userGroup
              [⟨"A1", "u1", "acc1", 1/2, "behavioral_anomaly", "unknown", "", 0⟩,
               ⟨"A2", "u1", "acc2", 1/2, "income_anomaly", "unknown", "", 0⟩] [] "u1",
            a.account_id = x) ∧
      (¬ 1 < (userAccounts
          [⟨"A1", "u1", "acc1", 1/2, "behavioral_anomaly", "unknown", "", 0⟩,
           ⟨"A2", "u1", "acc2", 1/2, "income_anomaly", "unknown", "", 0⟩] [] "u1").length →
        c.fraud_type = mostFrequent ((userGroup
            [⟨"A1", "u1", "acc1", 1/2, "behavioral_anomaly", "unknown", "", 0⟩,
             ⟨"A2", "u1", "acc2", 1/2, "income_anomaly", "unknown", "", 0⟩] [] "u1").map
              (fun a => a.fraud_type_inferred)) ∧
        ∀ t ∈ (userGroup
            [⟨"A1", "u1", "acc1", 1/2, "behavioral_anomaly", "unknown", "", 0⟩,
             ⟨"A2", "u1", "acc2", 1/2, "income_anomaly", "unknown", "", 0⟩] [] "u1").map
              (fun a => a.fraud_type_inferred),
          ((userGroup
            [⟨"A1", "u1", "acc1", 1/2, "behavioral_anomaly", "unknown", "", 0⟩,
             ⟨"A2", "u1", "acc2", 1/2, "income_anomaly", "unknown", "", 0⟩] [] "u1").map
              (fun a => a.fraud_type_inferred)).count t ≤
            ((userGroup
              [⟨"A1", "u1", "acc1", 1/2, "behavioral_anomaly", "unknown", "", 0⟩,
               ⟨"A2", "u1", "acc2", 1/2, "income_anomaly", "unknown", "", 0⟩] [] "u1").map
                (fun a => a.fraud_type_inferred)).count c.fraud_type) :=
  user_pass_grouping
    [⟨"A1", "u1", "acc1", 1/2, "behavioral_anomaly", "unknown", "", 0⟩,
     ⟨"A2", "u1", "acc2", 1/2, "income_anomaly", "unknown", "", 0⟩] [] "u1"
    (by simp [remainingAlerts, firstKeys])

theorem beq_eq_decide_str (a b : String) : (a == b) = decide (a = b) := by
  by_cases h : a = b <;> simp [h]

theorem filter_or_perm {α : Type} (p q : α → Bool) (l : List α)
    (hdisj : ∀ a, ¬(p a = true ∧ q a = true)) :
    (l.filter p ++ l.filter q).Perm (l.filter (fun a => p a || q a)) := by
  induction l with
  | nil => simp
  | cons a l ih =>
    by_cases hp : p a = true
    · have hq : ¬q a = true := fun hq => hdisj a ⟨hp, hq⟩
      rw [List.filter_cons_of_pos hp, List.filter_cons_of_neg (by simpa using hq),
        List.filter_cons_of_pos (by simp [hp])]
      simpa using ih.cons a
    · by_cases hq : q a = true
      · rw [List.filter_cons_of_neg (by simpa using hp), List.filter_cons_of_pos hq,
          List.filter_cons_of_pos (by simp [hq])]
        exact List.perm_middle.trans (ih.cons a)
      · rw [List.filter_cons_of_neg (by simpa using hp),
          List.filter_cons_of_neg (by simpa using hq),
          List.filter_cons_of_neg (by simp [hp, hq])]
        exact ih

theorem flatMap_filter_key_perm {α κ : Type} [DecidableEq κ] (key : α → κ) (l : List α) :
    ∀ ds : List κ, ds.Nodup →
      (ds.flatMap (fun d => l.filter (fun a => decide (key a = d)))).Perm
        (l.filter (fun a => decide (key a ∈ ds))) := by
  intro ds
  induction ds with
  | nil => simp
  | cons d ds' ih =>
    intro hnd
    simp only [List.flatMap_cons]
    have h1 := ih (List.nodup_cons.mp hnd).2
    have h2 : ∀ a : α,
        ¬((fun a => decide (key a = d)) a = true ∧
          (fun a => decide (key a ∈ ds')) a = true) := by
      intro a ha
      simp only [decide_eq_true_eq] at ha
      exact (List.nodup_cons.mp hnd).1 (ha.1 ▸ ha.2)
    have h3 := (List.Perm.append_left (l.filter (fun a => decide (key a = d))) h1).trans
      (filter_or_perm _ _ l h2)
    refine h3.trans (List.Perm.of_eq (List.filter_congr ?_))
    intro a _
    simp [List.mem_cons]

theorem flatMap_congr' {α β : Type} (l : List α) (f g : α → List β)
    (h : ∀ a ∈ l, f a = g a) : l.flatMap f = l.flatMap g := by
  induction l with
  | nil => rfl
  | cons a l ih =>
    simp only [List.flatMap_cons, h a (List.mem_cons_self a l),
      ih (fun b hb => h b (List.mem_cons_of_mem a hb))]

theorem ring_cases_ids (alerts : List Alert) (ds : List String) :
    ((ds.map (mkRingCase alerts)).flatMap (fun c => c.alert_ids)) =
      ds.flatMap (fun d => (deviceGroup alerts d).map (fun a => a.alert_id)) := by
  induction ds with
  | nil => rfl
  | cons d ds ih =>
    simp only [List.map_cons, List.flatMap_cons, ih]
    rfl

theorem build_user_case_for_ids (alerts : List Alert) (processed : List String)
    (u : String) :
    (build_user_case_for alerts processed u).alert_ids =
      (userGroup alerts processed u).map (fun a => a.alert_id) := by
  simp only [build_user_case_for]
  split
  · rfl
  · split <;> rfl

theorem user_cases_ids (alerts : List Alert) (processed : List String)
    (ds : List String) :
    ((ds.map (build_user_case_for alerts processed)).flatMap (fun c => c.alert_ids)) =
      ds.flatMap (fun u => (userGroup alerts processed u).map (fun a => a.alert_id)) := by
  induction ds with
  | nil => rfl
  | cons u ds ih =>
    simp only [List.map_cons, List.flatMap_cons, ih, build_user_case_for_ids]

/-- C1: `build_cases` partitions the batch: when the input alert ids are
distinct (they are minted one per transaction), the concatenation of
`alert_ids` over all output cases is a permutation of the input alert-id
list — every alert lands in exactly one case, with no duplicates and no
omissions — and every case owns a non-empty alert set. -/
theorem build_cases_partition (alerts : List Alert)
    (hids : (alerts.map (fun a => a.alert_id)).Nodup) :
    ((build_cases alerts).flatMap (fun c => c.alert_ids)).Perm
      (alerts.map (fun a => a.alert_id)) ∧
    ∀ c ∈ build_cases alerts, c.alert_ids ≠ [] := by
  by_cases halt : alerts = []
  · subst halt
    constructor
    · simp [build_cases]
    · intro c hc
      simp [build_cases] at hc
  have hne : ¬(alerts.isEmpty = true) := by simpa [List.isEmpty_iff] using halt
  have hbc : build_cases alerts =
      ((ringDevices alerts).map (mkRingCase alerts)) ++
        build_user_cases alerts (build_fraud_ring_cases alerts []).2 := by
    rw [build_cases, if_neg hne]
    rfl
  have hrdnd : (ringDevices alerts).Nodup := (nodup_firstKeys _).filter _
  -- the Bool predicate "this alert is consumed by pass 1"
  set P : Alert → Bool := fun a =>
    (a.device_id != "unknown") && decide (a.device_id ∈ ringDevices alerts) with hP
  have hdg : ∀ d, deviceGroup alerts d =
      (devAlertsOf alerts).filter (fun a => decide (a.device_id = d)) := by
    intro d
    exact List.filter_congr (fun a _ => beq_eq_decide_str _ _)
  -- pass-1 consumed alerts, as a filter of the input
  have hPfilter : (devAlertsOf alerts).filter
      (fun a => decide (a.device_id ∈ ringDevices alerts)) = alerts.filter P := by
    rw [devAlertsOf, List.filter_filter]
    refine List.filter_congr (fun a _ => ?_)
    cases h1 : (a.device_id != "unknown") <;>
      cases h2 : decide (a.device_id ∈ ringDevices alerts) <;> simp [hP, h1, h2]
  -- membership of an id in the processed set ↔ the alert satisfies P
  have hmemproc : ∀ a ∈ alerts,
      (a.alert_id ∈ (build_fraud_ring_cases alerts []).2 ↔ P a = true) := by
    intro a ha
    simp only [build_fraud_ring_cases, List.nil_append, List.mem_flatMap]
    constructor
    · rintro ⟨d, hd, hmm⟩
      obtain ⟨b, hb, hbid⟩ := List.mem_map.mp hmm
      have hbdev : b ∈ devAlertsOf alerts := (List.mem_filter.mp hb).1
      have hbal : b ∈ alerts := (List.mem_filter.mp hbdev).1
      have hba : b = a := List.inj_on_of_nodup_map hids hbal ha hbid
      subst hba
      have h1 : (b.device_id != "unknown") = true := (List.mem_filter.mp hbdev).2
      have h2 : b.device_id = d := by
        have := (List.mem_filter.mp hb).2
        simpa using this
      simp only [hP, Bool.and_eq_true, h1, true_and, decide_eq_true_eq]
      exact h2 ▸ hd
    · intro hpa
      simp only [hP, Bool.and_eq_true, decide_eq_true_eq] at hpa
      refine ⟨a.device_id, hpa.2, ?_⟩
      refine List.mem_map_of_mem _ ?_
      exact List.mem_filter.mpr ⟨List.mem_filter.mpr ⟨ha, hpa.1⟩, by simp⟩
  -- pass 2 sees exactly the alerts P rejects
  have hrem : remainingAlerts alerts (build_fraud_ring_cases alerts []).2 =
      alerts.filter (fun a => !(P a)) := by
    apply List.filter_congr
    intro a ha
    by_cases hpa : P a = true
    · have := (hmemproc a ha).mpr hpa
      simp [this, hpa]
    · have hni : a.alert_id ∉ (build_fraud_ring_cases alerts []).2 :=
        fun hmem' => hpa ((hmemproc a ha).mp hmem')
      have hfa : P a = false := by
        cases hpv : P a
        · rfl
        · exact absurd hpv hpa
      simp [hni, hfa]
  -- pass-1 ids permute the ids of the P-alerts
  have hring_perm : (((ringDevices alerts).map (mkRingCase alerts)).flatMap
        (fun c => c.alert_ids)).Perm ((alerts.filter P).map (fun a => a.alert_id)) := by
    rw [ring_cases_ids, flatMap_congr' _ _
      (fun d => ((devAlertsOf alerts).filter
        (fun a => decide (a.device_id = d))).map (fun a => a.alert_id))
      (fun d _ => by rw [hdg])]
    have h1 : ((ringDevices alerts).flatMap (fun d => ((devAlertsOf alerts).filter
        (fun a => decide (a.device_id = d))).map (fun a => a.alert_id))) =
        ((ringDevices alerts).flatMap (fun d => (devAlertsOf alerts).filter
          (fun a => decide (a.device_id = d)))).map (fun a => a.alert_id) := by
      rw [List.map_flatMap]
    rw [h1, ← hPfilter]
    exact (flatMap_filter_key_perm (fun a => a.device_id) (devAlertsOf alerts)
      (ringDevices alerts) hrdnd).map _
  -- pass-2 ids permute the ids of the remaining alerts
  have huser_perm : ((build_user_cases alerts (build_fraud_ring_cases alerts []).2).flatMap
        (fun c => c.alert_ids)).Perm
      ((alerts.filter (fun a => !(P a))).map (fun a => a.alert_id)) := by
    rw [build_user_cases, user_cases_ids]
    have hug : ∀ u, userGroup alerts (build_fraud_ring_cases alerts []).2 u =
        (remainingAlerts alerts (build_fraud_ring_cases alerts []).2).filter
          (fun a => decide (a.user_id = u)) := by
      intro u
      exact List.filter_congr (fun a _ => beq_eq_decide_str _ _)
    rw [flatMap_congr' _ _
      (fun u => ((remainingAlerts alerts (build_fraud_ring_cases alerts []).2).filter
        (fun a => decide (a.user_id = u))).map (fun a => a.alert_id))
      (fun u _ => by rw [hug])]
    have h1 : ∀ rem : List Alert, ((firstKeys (rem.map (fun a => a.user_id))).flatMap
        (fun u => (rem.filter (fun a => decide (a.user_id = u))).map
          (fun a => a.alert_id))).Perm (rem.map (fun a => a.alert_id)) := by
      intro rem
      have h2 : ((firstKeys (rem.map (fun a => a.user_id))).flatMap
          (fun u => (rem.filter (fun a => decide (a.user_id = u))).map
            (fun a => a.alert_id))) =
          ((firstKeys (rem.map (fun a => a.user_id))).flatMap
            (fun u => rem.filter (fun a => decide (a.user_id = u)))).map
              (fun a => a.alert_id) := by
        rw [List.map_flatMap]
      rw [h2]
      have h3 := (flatMap_filter_key_perm (fun a => a.user_id) rem
        (firstKeys (rem.map (fun a => a.user_id))) (nodup_firstKeys _)).map
          (fun a => a.alert_id)
      have h4 : rem.filter (fun a =>
          decide (a.user_id ∈ firstKeys (rem.map (fun b => b.user_id)))) = rem := by
        rw [List.filter_eq_self]
        intro a ha
        simp only [decide_eq_true_eq, mem_firstKeys]
        exact List.mem_map_of_mem _ ha
      rw [h4] at h3
      exact h3
    rw [hrem]
    exact h1 (alerts.filter (fun a => !(P a)))
  constructor
  · rw [hbc, List.flatMap_append]
    refine ((hring_perm.append huser_perm).trans ?_)
    rw [← List.map_append]
    exact (List.filter_append_perm P alerts).map _
  · intro c hc
    rw [hbc] at hc
    rcases List.mem_append.mp hc with hcr | hcu
    · obtain ⟨d, hd, rfl⟩ := List.mem_map.mp hcr
      have hd' : d ∈ firstKeys ((devAlertsOf alerts).map (fun a => a.device_id)) :=
        (List.mem_filter.mp hd).1
      rw [mem_firstKeys] at hd'
      obtain ⟨a, ha, had⟩ := List.mem_map.mp hd'
      have hmem : a ∈ deviceGroup alerts d :=
        List.mem_filter.mpr ⟨ha, by simp [had]⟩
      show (deviceGroup alerts d).map (fun a => a.alert_id) ≠ []
      simp only [ne_eq, List.map_eq_nil_iff]
      exact List.ne_nil_of_mem hmem
    · obtain ⟨u, hu, rfl⟩ := List.mem_map.mp hcu
      rw [mem_firstKeys] at hu
      obtain ⟨a, ha, hau⟩ := List.mem_map.mp hu
      have hmem : a ∈ userGroup alerts (build_fraud_ring_cases alerts []).2 u :=
        List.mem_filter.mpr ⟨ha, by simp [hau]⟩
      rw [build_user_case_for_ids]
      simp only [ne_eq, List.map_eq_nil_iff]
      exact List.ne_nil_of_mem hmem

/-- C1 witness: the partition property on a concrete two-alert batch
(one ring-eligible device shared by two users). -/
theorem build_cases_partition_witness :
    (((build_cases [⟨"A1", "U1", "acc1", 1/2, "t", "DEV1", "ip", 0⟩,
        ⟨"A2", "U2", "acc2", 1/2, "t", "DEV1", "ip", 0⟩]).flatMap
          (fun c => c.alert_ids)).Perm
      (([⟨"A1", "U1", "acc1", 1/2, "t", "DEV1", "ip", 0⟩,
         ⟨"A2", "U2", "acc2", 1/2, "t", "DEV1", "ip", 0⟩] : List Alert).map
          (fun a => a.alert_id))) :=
  (build_cases_partition
    [⟨"A1", "U1", "acc1", 1/2, "t", "DEV1", "ip", 0⟩,
     ⟨"A2", "U2", "acc2", 1/2, "t", "DEV1", "ip", 0⟩] (by simp)).1

end Evidence
